import Mathlib

/-!
Verification of the `httpclient` caching layer (`httpclient.go`).

The Go source is shallowly embedded: pure helpers (`fsKey`,
`shouldUseCachedValue`, `getWriteTimestamp`, `getVersion`) become Lean
functions; the stateful fetch path (`internalCacheFetch`,
`prepareForWriting`, the deferred store function, `RawCacheData`) is
modelled by explicit state passing over an association-list file system.
External collaborators are modelled at the boundary the code uses them:
the transport is a value of type `TransportResult`, the gzip + HTTP wire
codec (`httputil.DumpResponse` / `http.ReadResponse`) is modelled as a
round-tripping store of `Response` values with an explicit corrupt
constructor for undecodable files, and `time.Time` values are Unix
seconds as `Int` (all times compared here are produced by
`time.Unix(sec, 0)`, so second granularity is exact).

The file is organised as: definitions, then supporting lemmas, then one
theorem per specification claim (with witnesses and counterexamples).
-/

namespace Httpclient

/-! ## Definitions -/

/-! ### Decimal printing and parsing

`prepareForWriting` stamps headers with `fmt.Sprintf("%d", n)`;
`getWriteTimestamp` / `getVersion` read them back with
`strconv.ParseInt` / `strconv.Atoi`.  We model both ends: `goIntString`
is decimal formatting, `parseGoInt` accepts an optional sign followed by
one or more decimal digits (Go's overflow failure is not modelled; no
stamped value overflows). -/

/-- Numeric value of a decimal digit character. -/
def digitVal (c : Char) : Nat := c.toNat - 48

/-- Left-to-right decimal accumulator; fails on the first non-digit. -/
def parseDigits : List Char → Nat → Option Nat
  | [], acc => some acc
  | c :: rest, acc =>
    if c.isDigit then parseDigits rest (acc * 10 + digitVal c) else none

/-- Nonempty all-digit strings parse; anything else fails. -/
def parseNatDigits (cs : List Char) : Option Nat :=
  match cs with
  | [] => none
  | _ => parseDigits cs 0

/-- Sign handling of the `strconv` model: an optional leading sign,
then one or more decimal digits. -/
def parseSigned (c : Char) (rest : List Char) : Option Int :=
  if c = '-' then (parseNatDigits rest).map (fun n => -(n : Int))
  else if c = '+' then (parseNatDigits rest).map (fun n => (n : Int))
  else (parseNatDigits (c :: rest)).map (fun n => (n : Int))

/-- Model of `strconv.Atoi` / `strconv.ParseInt(s, 10, 64)`: optional
sign, then one or more decimal digits. -/
def parseGoInt (s : String) : Option Int :=
  match s.data with
  | [] => none
  | c :: rest => parseSigned c rest

/-- Decimal digits, least significant first, with structural fuel so
that the definition reduces inside the kernel. -/
def natDigitsRevAux : Nat → Nat → List Char
  | _, 0 => []
  | n, fuel + 1 =>
    if n < 10 then [Char.ofNat (48 + n)]
    else Char.ofNat (48 + n % 10) :: natDigitsRevAux (n / 10) fuel

/-- Decimal digits of `n`, least significant first. -/
def natDigitsRev (n : Nat) : List Char := natDigitsRevAux n (n + 1)

/-- Decimal representation of a natural number. -/
def natString (n : Nat) : String := ⟨(natDigitsRev n).reverse⟩

/-- Model of `fmt.Sprintf("%d", i)`. -/
def goIntString (i : Int) : String :=
  if i < 0 then "-" ++ natString (-i).toNat else natString i.toNat

/-! ### Headers

Go's `http.Header` is a map from (canonical) header name to a list of
values; the code only uses `Get` (first value, `""` when absent) and
`Set` (replace all values).  We model it as an association list with
exactly that interface.  MIME canonicalization is elided: every access
in the source uses one fixed spelling per key, so canonicalization never
distinguishes two accesses. -/

abbrev Headers := List (String × String)

/-- Model of `http.Header.Get`: first value for the key, `""` if absent. -/
def headerGet (h : Headers) (k : String) : String :=
  match h.find? (fun p => p.1 == k) with
  | some p => p.2
  | none => ""

/-- Model of `http.Header.Set`: replace every value stored for the key. -/
def headerSet (h : Headers) (k v : String) : Headers :=
  (k, v) :: h.filter (fun p => p.1 != k)

/-! ### Data model

`Response` carries the fields of `http.Response` the code reads:
`StatusCode`, `ContentLength` (`-1` meaning "unknown", as in Go),
`Header`, and the body bytes.  `Store` carries the configuration fields
of the Go `Store`; the transport (`client`) is passed at each call as a
`TransportResult`, and `seenHosts` / directory creation is elided (it
only memoizes `os.MkdirAll`, which no claim touches). -/

structure Response where
  statusCode : Int
  contentLength : Int
  headers : Headers
  body : List Nat
deriving DecidableEq

structure Store where
  fileSystemRoot : String
  maxErrorVersion : Int
  fetchTimestampKey : String
  fetchVersionKey : String
deriving DecidableEq

/-- Constant `_timestampKey`. -/
def timestampKey : String := "X-Elucidate-Time"

/-- Constant `_versionKey`. -/
def versionKey : String := "X-Elucidate-Version"

/-- Constant `_etagKey`. -/
def etagKey : String := "Etag"

/-- Constant `_ifNoneMatchKey`. -/
def ifNoneMatchKey : String := "If-None-Match"

/-- Constant `_minimumContentLength`. -/
def minimumContentLength : Int := 10

/-- Constant `_defaultAllowedErrors`. -/
def defaultAllowedErrors : Int := 3

/-- Model of `NewStore` with no options: default client aside, the
defaulted configuration fields. -/
def NewStore (fileSystemRoot : String) : Store :=
  { fileSystemRoot := fileSystemRoot
    maxErrorVersion := defaultAllowedErrors
    fetchTimestampKey := timestampKey
    fetchVersionKey := versionKey }

/-- Model of `getWriteTimestamp`: the timestamp header must be present
and parse as a decimal integer; the resulting `time.Unix(seconds, 0)`
value is represented by its seconds. -/
def getWriteTimestamp (s : Store) (rsp : Response) : Option Int :=
  let timestamp := headerGet rsp.headers s.fetchTimestampKey
  if timestamp ≠ "" then parseGoInt timestamp else none

/-- Model of `getVersion`: an absent version header defaults to 1; a
present one must parse as a decimal integer. -/
def getVersion (s : Store) (rsp : Response) : Option Int :=
  let version := headerGet rsp.headers s.fetchVersionKey
  if version ≠ "" then parseGoInt version else some 1

/-- The retryable error statuses of the `switch` in
`shouldUseCachedValue`: 403, 401, 500, 502, 503, 504. -/
def errorStatuses : List Int := [403, 401, 500, 502, 503, 504]

/-- Model of `shouldUseCachedValue`.  `lastModified` is the caller's
cutoff in Unix seconds; `time.Time.After` on values built by
`time.Unix(sec, 0)` is strict `>` on seconds. -/
def shouldUseCachedValue (s : Store) (rsp : Response) (lastModified : Int) :
    Int × Bool :=
  if rsp.contentLength ≠ -1 ∧ rsp.contentLength < minimumContentLength then
    (0, false)
  else
    match getWriteTimestamp s rsp with
    | none => (0, false)
    | some t =>
      match getVersion s rsp with
      | none => (0, false)
      | some version =>
        if rsp.statusCode ∈ errorStatuses ∧ version ≤ s.maxErrorVersion then
          (version, false)
        else if t > lastModified then (version, true)
        else (0, false)

/-! ### Key derivation (`fsKey`)

`strings.ReplaceAll(s, "/", "-")` with a one-character pattern is a
character map, `strings.TrimLeft(s, "/")` drops the leading run of
slashes, and `strings.ToLower` lower-cases character-wise (the inputs
of interest are ASCII).  `filepath.Join` is modelled as joining with
the separator; its `Clean` normalization is elided because the cleaned
segment contains no separator and root and host are opaque here. -/

structure URL where
  host : String
  path : String
  rawQuery : String
deriving DecidableEq

/-- Model of `strings.ReplaceAll(s, "/", "-")`. -/
def replaceSlashes (s : String) : String :=
  ⟨s.data.map (fun c => if c = '/' then '-' else c)⟩

/-- Model of `strings.TrimLeft(s, "/")`. -/
def trimLeftSlashes (s : String) : String :=
  ⟨s.data.dropWhile (fun c => c == '/')⟩

/-- Model of `strings.ToLower` on ASCII data. -/
def lowerString (s : String) : String := ⟨s.data.map Char.toLower⟩

/-- Model of `filepath.Join(a, b, c)` on separator-free final segments. -/
def filepathJoin3 (a b c : String) : String := a ++ "/" ++ b ++ "/" ++ c

/-- Model of `fsKey`. -/
def fsKey (fileSystemRoot : String) (u : URL) : String :=
  let cleanedParams := replaceSlashes u.rawQuery
  let noLeadingSlash := trimLeftSlashes u.path
  let cleanedPath := replaceSlashes noLeadingSlash
  filepathJoin3 fileSystemRoot u.host
    (lowerString (cleanedPath ++ "?" ++ cleanedParams ++ ".gz"))

/-- The key derivation as the spec words it (section 4.1): the leading
path separator run stripped, separators in path and query replaced by a
hyphen and each part lower-cased, then `root/host/<path>?<query>.gz`. -/
def fsKeySpec (root : String) (u : URL) : String :=
  let cleanedPath := lowerString (replaceSlashes (trimLeftSlashes u.path))
  let cleanedQuery := lowerString (replaceSlashes u.rawQuery)
  filepathJoin3 root u.host (cleanedPath ++ "?" ++ cleanedQuery ++ ".gz")

/-! ### Storage and the fetch path

One stored file per key.  A file either decodes back to the `Response`
that was written (`CacheFile.good` — `DumpResponse` then gzip then
`ReadResponse` round-trips status, headers and body) or fails to decode
(`CacheFile.corrupt` — absent files are simply missing keys).
`internalCacheFetch` is the Go function with its effects made explicit:
the transport's answer is an argument, the deferred `StoreFunc` becomes
the `commit` field (`none` for `NoOpStoreFunc`), and `time.Now().Unix()`
is the `now` argument. -/

inductive CacheFile where
  | good (r : Response)
  | corrupt
deriving DecidableEq

abbrev Storage := List (String × CacheFile)

/-- Lookup of the file stored at a key. -/
def lookupFile (st : Storage) (k : String) : Option CacheFile :=
  match st.find? (fun p => p.1 == k) with
  | some p => some p.2
  | none => none

/-- Model of `os.WriteFile`: replace whatever was at the key. -/
def insertFile (st : Storage) (k : String) (f : CacheFile) : Storage :=
  (k, f) :: st.filter (fun p => p.1 != k)

/-- Model of `readAndParseGZIPFile`: `some` exactly when a decodable
entry is stored at the key. -/
def readAndParseGZIPFile (st : Storage) (k : String) : Option Response :=
  match lookupFile st k with
  | some (CacheFile.good r) => some r
  | _ => none

/-- Status `http.StatusNotModified`. -/
def statusNotModified : Int := 304

/-- Model of `prepareForWriting`'s header stamping: the returned
response carries the current write timestamp and the version to store.
The `DumpResponse` serialization itself is part of the entry codec
collaborator and cannot fail in the model. -/
def prepareForWriting (s : Store) (version : Int) (rsp : Response) (now : Int) :
    Response :=
  { rsp with
    headers := headerSet (headerSet rsp.headers s.fetchTimestampKey
      (goIntString now)) s.fetchVersionKey (goIntString version) }

inductive TransportResult where
  | ok (r : Response)
  | err (e : String)
deriving DecidableEq

/-- Everything `internalCacheFetch` hands back, with the implicit
effects made visible: `commit` is the pending write the `StoreFunc`
would perform (`none` for `NoOpStoreFunc`), `transportCalled` records
whether `client.Do` ran, and `etagSent` the `If-None-Match` value it
was sent. -/
structure FetchOutcome where
  rsp : Option Response
  cached : Bool
  commit : Option (String × Response)
  error : Option String
  transportCalled : Bool
  etagSent : Option String
deriving DecidableEq

/-- Lines 178–198 of `internalCacheFetch`: set `If-None-Match`, call the
transport, propagate its error, honor 304, otherwise stamp
`version + 1` and defer the write. -/
def fetchRemote (s : Store) (key : String) (cachedRsp : Option Response)
    (version : Int) (etag : String) (tr : TransportResult) (now : Int) :
    FetchOutcome :=
  match tr with
  | TransportResult.err e =>
    { rsp := none, cached := false, commit := none, error := some e
      transportCalled := true, etagSent := some etag }
  | TransportResult.ok rsp =>
    if rsp.statusCode = statusNotModified then
      { rsp := cachedRsp, cached := true, commit := none, error := none
        transportCalled := true, etagSent := some etag }
    else
      let stamped := prepareForWriting s (version + 1) rsp now
      { rsp := some stamped, cached := false, commit := some (key, stamped)
        error := none, transportCalled := true, etagSent := some etag }

/-- Model of `internalCacheFetch` (and hence of `CacheFetch`, which only
attaches the context). -/
def internalCacheFetch (s : Store) (st : Storage) (u : URL)
    (lastModified : Int) (tr : TransportResult) (now : Int) : FetchOutcome :=
  let key := fsKey s.fileSystemRoot u
  match readAndParseGZIPFile st key with
  | some cachedRsp =>
    let vOk := shouldUseCachedValue s cachedRsp lastModified
    if vOk.2 then
      { rsp := some cachedRsp, cached := true, commit := none, error := none
        transportCalled := false, etagSent := none }
    else
      fetchRemote s key (some cachedRsp) vOk.1
        (headerGet cachedRsp.headers etagKey) tr now
  | none => fetchRemote s key none 0 "" tr now

/-- Running the deferred `StoreFunc`: a pending write replaces the file
at its key with the (round-tripping) serialization of the stamped
response; `NoOpStoreFunc` leaves storage unchanged. -/
def applyCommit (st : Storage) (o : FetchOutcome) : Storage :=
  match o.commit with
  | some (k, r) => insertFile st k (CacheFile.good r)
  | none => st

/-- Unix seconds of Go's zero `time.Time{}` (January 1, year 1, UTC),
the "accept anything cached" cutoff used by `Store.Do`. -/
def goZeroTimeUnix : Int := -62135596800

/-- A sequence of `CacheFetch` calls against one URL, each immediately
committed (`CacheFetchAndStore`): every call supplies a cutoff, the
transport's answer, and the current time. -/
def runTrace (s : Store) (u : URL) :
    List (Int × TransportResult × Int) → Storage → List FetchOutcome × Storage
  | [], st => ([], st)
  | (cutoff, tr, now) :: rest, st =>
    let o := internalCacheFetch s st u cutoff tr now
    let (os, st2) := runTrace s u rest (applyCommit st o)
    (o :: os, st2)

/-! ### `RawCacheData`

`readGZIPFile` fails when the file is absent (`os.ReadFile`) or its
gzip header is invalid (`gzip.NewReader`); on success the decompressed
dump bytes come back (abstracted here to the stored body — no claim
depends on the exact wire bytes).  `RawCacheData` guards that call with
`if err != err`, which we transcribe literally; when the guard falls
through on a failed read, `io.ReadAll` runs on a nil `*gzip.Reader`,
which is the `nilReaderRead` outcome (a nil-pointer dereference, not an
error return). -/

def dumpBytes (r : Response) : List Nat := r.body

/-- Model of `readGZIPFile`. -/
def readGZIPFile (st : Storage) (key : String) : Except String (List Nat) :=
  match lookupFile st key with
  | none => Except.error "open: no such file or directory"
  | some CacheFile.corrupt => Except.error "gzip: invalid header"
  | some (CacheFile.good r) => Except.ok (dumpBytes r)

inductive RawReadResult where
  | ok (data : List Nat)
  | err (e : String)
  | nilReaderRead
deriving DecidableEq

/-- Model of `RawCacheData`, `if err != err` transcribed as written. -/
def rawCacheData (s : Store) (u : URL) (st : Storage) : RawReadResult :=
  match readGZIPFile st (fsKey s.fileSystemRoot u) with
  | Except.error e =>
    if e ≠ e then RawReadResult.err e else RawReadResult.nilReaderRead
  | Except.ok data => RawReadResult.ok data

/-! ### Expected shapes of the always-failing-endpoint trace

Used to state the bounded-error-retry behavior: against a transport
that always answers the same retryable-error response `r`, a call made
while the stored version is `v` (by convention `v = 0` when no entry is
stored) misses, sends the stored entity tag, and commits the response
stamped with version `v + 1` at the call's time. -/

/-- The `If-None-Match` value sent while the stored version is `v`
(stamped at time `t`): empty before the first write. -/
def errEtag (s : Store) (r : Response) (v t : Int) : String :=
  if v = 0 then "" else headerGet (prepareForWriting s v r t).headers etagKey

/-- Outcome of one call on the always-failing endpoint while the stored
version is `v` (stamped at `t`): a miss that commits version `v + 1`. -/
def errMissOutcome (s : Store) (key : String) (r : Response) (v t now : Int) :
    FetchOutcome :=
  { rsp := some (prepareForWriting s (v + 1) r now), cached := false
    commit := some (key, prepareForWriting s (v + 1) r now), error := none
    transportCalled := true, etagSent := some (errEtag s r v t) }

/-- Expected outcomes of a run of calls `(cutoff, now)` on the
always-failing endpoint, starting from stored version `v` (stamp `t`):
every call misses and commits the next version. -/
def expectedErrOutputs (s : Store) (key : String) (r : Response) :
    Int → Int → List (Int × Int) → List FetchOutcome
  | _, _, [] => []
  | v, t, (_, now) :: rest =>
    errMissOutcome s key r v t now :: expectedErrOutputs s key r (v + 1) now rest

/-- Expected storage after that same run. -/
def expectedErrStorage (s : Store) (key : String) (r : Response) :
    Int → Int → List (Int × Int) → Storage → Storage
  | _, _, [], st => st
  | v, _, (_, now) :: rest, st =>
    expectedErrStorage s key r (v + 1) now rest
      (insertFile st key (CacheFile.good (prepareForWriting s (v + 1) r now)))

/-- Invariant tying the stored version counter to storage: version `0`
means no decodable entry, a positive `v` means the error response
stamped with version `v` at time `t` is stored. -/
def errState (s : Store) (key : String) (r : Response) (v t : Int)
    (st : Storage) : Prop :=
  if v = 0 then readAndParseGZIPFile st key = none
  else readAndParseGZIPFile st key = some (prepareForWriting s v r t)

/-! ### Concrete fixtures for witnesses and counterexamples -/

/-- Store with `maxErrorVersion = 2`, as in the repository's own test. -/
def exStore2 : Store := { NewStore "root" with maxErrorVersion := 2 }

/-- Store with the default configuration. -/
def exStore : Store := NewStore "root"

def exUrl : URL := { host := "example.com", path := "/idx", rawQuery := "" }

/-- A retryable 500 response of undeclared length, body "hi". -/
def exErr500 : Response :=
  { statusCode := 500, contentLength := -1, headers := [], body := [104, 105] }

/-- A healthy 200 response of undeclared length. -/
def exOk200 : Response :=
  { statusCode := 200, contentLength := -1
    headers := [(etagKey, "v1")], body := [104, 105] }

/-- A 200 response declaring a 2-byte body — below the 10-byte minimum. -/
def exTiny200 : Response :=
  { statusCode := 200, contentLength := 2, headers := [], body := [104, 105] }

/-- A stale stored entry: status 200, stored version 5, written at 100. -/
def exStored5 : Response :=
  { statusCode := 200, contentLength := -1
    headers := [(timestampKey, "100"), (versionKey, "5"), (etagKey, "z")]
    body := [104, 105, 106, 107, 108, 109, 110, 111, 112, 113] }

/-- A stored entry whose version header does not parse. -/
def exBadVersion : Response :=
  { statusCode := 200, contentLength := -1
    headers := [(timestampKey, "100"), (versionKey, "abc")], body := [104] }

/-- A stored entry carrying a timestamp but no version header. -/
def exNoVersion : Response :=
  { statusCode := 200, contentLength := -1
    headers := [(timestampKey, "100")], body := [104] }

/-- A 304 Not Modified reply from the transport. -/
def exNotModified : Response :=
  { statusCode := 304, contentLength := -1, headers := [], body := [] }

/-! ## Supporting lemmas -/

theorem parseGoInt_cons {s : String} {c : Char} {rest : List Char}
    (h : s.data = c :: rest) : parseGoInt s = parseSigned c rest := by
  unfold parseGoInt
  rw [h]

theorem natDigitsRevAux_fuel (n : Nat) :
    ∀ fuel1 fuel2, n < fuel1 → n < fuel2 →
      natDigitsRevAux n fuel1 = natDigitsRevAux n fuel2 := by
  induction n using Nat.strong_induction_on with
  | _ n ih =>
    intro fuel1 fuel2 h1 h2
    match fuel1, fuel2 with
    | f1 + 1, f2 + 1 =>
      unfold natDigitsRevAux
      split
      · rfl
      · rename_i hten
        have hdiv : n / 10 < n := Nat.div_lt_self (by omega) (by omega)
        rw [ih (n / 10) hdiv f1 f2 (by omega) (by omega)]

theorem natDigitsRev_step (n : Nat) :
    natDigitsRev n =
      if n < 10 then [Char.ofNat (48 + n)]
      else Char.ofNat (48 + n % 10) :: natDigitsRev (n / 10) := by
  unfold natDigitsRev
  conv_lhs => rw [natDigitsRevAux]
  split
  · rfl
  · rename_i hten
    have hdiv : n / 10 < n := Nat.div_lt_self (by omega) (by omega)
    rw [natDigitsRevAux_fuel (n / 10) n (n / 10 + 1) (by omega) (by omega)]

theorem natDigitsRev_ne_nil (n : Nat) : natDigitsRev n ≠ [] := by
  rw [natDigitsRev_step]
  split <;> simp

theorem digit_char_isDigit {d : Nat} (h : d < 10) :
    (Char.ofNat (48 + d)).isDigit = true := by
  interval_cases d <;> decide

theorem digit_char_val {d : Nat} (h : d < 10) :
    digitVal (Char.ofNat (48 + d)) = d := by
  interval_cases d <;> decide

theorem mem_natDigitsRev_isDigit {n : Nat} {c : Char}
    (h : c ∈ natDigitsRev n) : c.isDigit = true := by
  induction n using Nat.strong_induction_on with
  | _ n ih =>
    rw [natDigitsRev_step] at h
    split at h
    · rcases List.mem_singleton.mp h with rfl
      exact digit_char_isDigit (by omega)
    · rcases List.mem_cons.mp h with rfl | h2
      · exact digit_char_isDigit (Nat.mod_lt _ (by omega))
      · exact ih (n / 10) (Nat.div_lt_self (by omega) (by omega)) h2

theorem parseDigits_append (cs : List Char) (c : Char) (acc : Nat) :
    parseDigits (cs ++ [c]) acc =
      match parseDigits cs acc with
      | some m => if c.isDigit then some (m * 10 + digitVal c) else none
      | none => none := by
  induction cs generalizing acc with
  | nil => simp [parseDigits]
  | cons d ds ih =>
    simp only [List.cons_append, parseDigits]
    split
    · exact ih _
    · rfl

theorem parseDigits_natDigitsRev (n : Nat) :
    parseDigits (natDigitsRev n).reverse 0 = some n := by
  induction n using Nat.strong_induction_on with
  | _ n ih =>
    rw [natDigitsRev_step]
    split
    · simp [parseDigits, digit_char_isDigit (by omega : n < 10),
        digit_char_val (by omega : n < 10)]
    · rename_i h
      rw [List.reverse_cons, parseDigits_append,
        ih (n / 10) (Nat.div_lt_self (by omega) (by omega))]
      have hd10 : n % 10 < 10 := Nat.mod_lt _ (by omega)
      simp only [digit_char_isDigit hd10, digit_char_val hd10, if_true]
      congr 1
      omega

theorem parseNatDigits_natString (n : Nat) :
    parseNatDigits (natString n).data = some n := by
  unfold parseNatDigits natString
  split
  · rename_i heq
    exact absurd (List.reverse_eq_nil_iff.mp heq) (natDigitsRev_ne_nil n)
  · exact parseDigits_natDigitsRev n

theorem natString_head_digit {n : Nat} {c : Char} {rest : List Char}
    (h : (natString n).data = c :: rest) : c.isDigit = true := by
  apply mem_natDigitsRev_isDigit (n := n)
  have : c ∈ (natDigitsRev n).reverse := by
    rw [show (natDigitsRev n).reverse = (natString n).data from rfl, h]
    simp
  simpa using this

/-- Round trip: every value stamped with `%d` formatting parses back to
itself through the `strconv` model. -/
theorem parseGoInt_goIntString (i : Int) : parseGoInt (goIntString i) = some i := by
  unfold goIntString
  split
  · rename_i hneg
    have hdata : ("-" ++ natString (-i).toNat).data = '-' :: (natString (-i).toNat).data := by
      simp [String.data_append]
    rw [parseGoInt_cons hdata]
    unfold parseSigned
    rw [if_pos rfl, parseNatDigits_natString]
    simp
    omega
  · rename_i hpos
    rcases hd : (natString i.toNat).data with _ | ⟨c, rest⟩
    · exact absurd (List.reverse_eq_nil_iff.mp hd) (natDigitsRev_ne_nil _)
    · have hdig := natString_head_digit hd
      have hc1 : ¬ c = '-' := by rintro rfl; simp [Char.isDigit] at hdig
      have hc2 : ¬ c = '+' := by rintro rfl; simp [Char.isDigit] at hdig
      rw [parseGoInt_cons hd]
      unfold parseSigned
      rw [if_neg hc1, if_neg hc2, ← hd, parseNatDigits_natString]
      simp
      omega

theorem goIntString_ne_empty (i : Int) : goIntString i ≠ "" := by
  unfold goIntString
  intro h
  split at h
  · have : ("-" ++ natString (-i).toNat).data = '-' :: (natString (-i).toNat).data := by
      simp [String.data_append]
    rw [h] at this
    simp at this
  · have : (natString i.toNat).data = ("" : String).data := by rw [h]
    simp only [natString] at this
    exact natDigitsRev_ne_nil _ (List.reverse_eq_nil_iff.mp this)

theorem headerGet_headerSet_self (h : Headers) (k v : String) :
    headerGet (headerSet h k v) k = v := by
  simp [headerGet, headerSet, List.find?]

theorem headerGet_headerSet_ne (h : Headers) {k k' : String} (v : String)
    (hne : k' ≠ k) : headerGet (headerSet h k v) k' = headerGet h k' := by
  unfold headerGet headerSet
  rw [List.find?]
  have : ((k, v).1 == k') = false := beq_eq_false_iff_ne.mpr (Ne.symm hne)
  rw [this]
  congr 1
  induction h with
  | nil => rfl
  | cons p t ih =>
    by_cases hp : p.1 = k
    · have h1 : (p.1 != k) = false := by simp [hp]
      have h2 : (p.1 == k') = false := by
        rw [hp]
        exact beq_eq_false_iff_ne.mpr (Ne.symm hne)
      simp only [List.filter, h1, List.find?, h2]
      exact ih
    · have h1 : (p.1 != k) = true := by simp [hp]
      simp only [List.filter, h1, List.find?]
      cases hpk : (p.1 == k') with
      | true => rfl
      | false => exact ih

theorem lookupFile_insertFile_self (st : Storage) (k : String) (f : CacheFile) :
    lookupFile (insertFile st k f) k = some f := by
  simp [lookupFile, insertFile, List.find?]

theorem readAndParseGZIPFile_insertFile_good (st : Storage) (k : String)
    (r : Response) :
    readAndParseGZIPFile (insertFile st k (CacheFile.good r)) k = some r := by
  simp [readAndParseGZIPFile, lookupFile_insertFile_self]

theorem statusCode_prepareForWriting (s : Store) (v : Int) (r : Response)
    (now : Int) : (prepareForWriting s v r now).statusCode = r.statusCode := rfl

theorem contentLength_prepareForWriting (s : Store) (v : Int) (r : Response)
    (now : Int) :
    (prepareForWriting s v r now).contentLength = r.contentLength := rfl

theorem getWriteTimestamp_prepareForWriting (s : Store) (v : Int)
    (r : Response) (now : Int) (hk : s.fetchTimestampKey ≠ s.fetchVersionKey) :
    getWriteTimestamp s (prepareForWriting s v r now) = some now := by
  unfold getWriteTimestamp prepareForWriting
  simp only
  rw [headerGet_headerSet_ne _ _ hk, headerGet_headerSet_self,
    if_pos (goIntString_ne_empty now), parseGoInt_goIntString]

theorem getVersion_prepareForWriting (s : Store) (v : Int) (r : Response)
    (now : Int) :
    getVersion s (prepareForWriting s v r now) = some v := by
  unfold getVersion prepareForWriting
  simp only
  rw [headerGet_headerSet_self, if_pos (goIntString_ne_empty v),
    parseGoInt_goIntString]

/-- The freshness policy on a response stamped by `prepareForWriting`
with version `v` at time `t`, when the payload's content length passes
the minimum-size guard: bounded error retry while `v` is within the
cap, otherwise the strict timestamp comparison. -/
theorem shouldUseCachedValue_stamped (s : Store) (r : Response)
    (v t cutoff : Int) (hk : s.fetchTimestampKey ≠ s.fetchVersionKey)
    (hcl : ¬(r.contentLength ≠ -1 ∧ r.contentLength < minimumContentLength)) :
    shouldUseCachedValue s (prepareForWriting s v r t) cutoff =
      if r.statusCode ∈ errorStatuses ∧ v ≤ s.maxErrorVersion then (v, false)
      else if t > cutoff then (v, true)
      else (0, false) := by
  unfold shouldUseCachedValue
  rw [contentLength_prepareForWriting, if_neg hcl,
    getWriteTimestamp_prepareForWriting s v r t hk,
    getVersion_prepareForWriting, statusCode_prepareForWriting]

theorem stringAppend_left_cancel {a x y : String} (h : a ++ x = a ++ y) :
    x = y := by
  have hd : a.data ++ x.data = a.data ++ y.data := by
    have := congrArg String.data h
    simpa [String.data_append] using this
  cases x
  cases y
  simp only at hd ⊢
  exact congrArg String.mk (List.append_cancel_left hd)

theorem stringAppend_right_cancel {a x y : String} (h : x ++ a = y ++ a) :
    x = y := by
  have hd : x.data ++ a.data = y.data ++ a.data := by
    have := congrArg String.data h
    simpa [String.data_append] using this
  cases x
  cases y
  simp only at hd ⊢
  exact congrArg String.mk (List.append_cancel_right hd)

theorem lowerString_append (x y : String) :
    lowerString (x ++ y) = lowerString x ++ lowerString y := by
  cases x
  cases y
  simp [lowerString, String.data_append]
  rfl

theorem statusNotModified_not_error : statusNotModified ∉ errorStatuses := by
  decide

theorem mem_errorStatuses_ne_304 {x : Int} (h : x ∈ errorStatuses) :
    x ≠ statusNotModified :=
  fun heq => statusNotModified_not_error (heq ▸ h)

theorem internalCacheFetch_of_read_none {s : Store} {st : Storage} {u : URL}
    {cutoff : Int} {tr : TransportResult} {now : Int}
    (h : readAndParseGZIPFile st (fsKey s.fileSystemRoot u) = none) :
    internalCacheFetch s st u cutoff tr now =
      fetchRemote s (fsKey s.fileSystemRoot u) none 0 "" tr now := by
  unfold internalCacheFetch
  simp only [h]

theorem internalCacheFetch_of_read_some {s : Store} {st : Storage} {u : URL}
    {cutoff : Int} {tr : TransportResult} {now : Int} {r : Response}
    (h : readAndParseGZIPFile st (fsKey s.fileSystemRoot u) = some r) :
    internalCacheFetch s st u cutoff tr now =
      if (shouldUseCachedValue s r cutoff).2 then
        { rsp := some r, cached := true, commit := none, error := none
          transportCalled := false, etagSent := none }
      else
        fetchRemote s (fsKey s.fileSystemRoot u) (some r)
          (shouldUseCachedValue s r cutoff).1 (headerGet r.headers etagKey)
          tr now := by
  unfold internalCacheFetch
  simp only [h]

theorem fetchRemote_err (s : Store) (key : String) (cachedRsp : Option Response)
    (version : Int) (etag : String) (e : String) (now : Int) :
    fetchRemote s key cachedRsp version etag (TransportResult.err e) now =
      { rsp := none, cached := false, commit := none, error := some e
        transportCalled := true, etagSent := some etag } := rfl

theorem fetchRemote_ok_notModified (s : Store) (key : String)
    (cachedRsp : Option Response) (version : Int) (etag : String)
    {r : Response} (now : Int) (h : r.statusCode = statusNotModified) :
    fetchRemote s key cachedRsp version etag (TransportResult.ok r) now =
      { rsp := cachedRsp, cached := true, commit := none, error := none
        transportCalled := true, etagSent := some etag } := by
  simp only [fetchRemote]
  rw [if_pos h]

theorem fetchRemote_ok_modified (s : Store) (key : String)
    (cachedRsp : Option Response) (version : Int) (etag : String)
    {r : Response} (now : Int) (h : r.statusCode ≠ statusNotModified) :
    fetchRemote s key cachedRsp version etag (TransportResult.ok r) now =
      { rsp := some (prepareForWriting s (version + 1) r now), cached := false
        commit := some (key, prepareForWriting s (version + 1) r now)
        error := none, transportCalled := true, etagSent := some etag } := by
  simp only [fetchRemote]
  rw [if_neg h]

/-- One call against the always-failing endpoint while the stored
version is within the error cap (`v = 0` meaning no stored entry): the
call always misses, contacts the transport and commits version `v + 1`. -/
theorem errCall_within_cap (s : Store) (u : URL) (r : Response)
    (hk : s.fetchTimestampKey ≠ s.fetchVersionKey)
    (hstat : r.statusCode ∈ errorStatuses)
    (hcl : r.contentLength = -1 ∨ minimumContentLength ≤ r.contentLength)
    (st : Storage) (v t cutoff now : Int)
    (h0 : 0 ≤ v) (hcap : v ≤ s.maxErrorVersion)
    (hstate : errState s (fsKey s.fileSystemRoot u) r v t st) :
    internalCacheFetch s st u cutoff (TransportResult.ok r) now =
      errMissOutcome s (fsKey s.fileSystemRoot u) r v t now := by
  have hcl2 : ¬(r.contentLength ≠ -1 ∧ r.contentLength < minimumContentLength) := by
    rintro ⟨h1, h2⟩
    rcases hcl with h | h
    · exact h1 h
    · omega
  have hne304 := mem_errorStatuses_ne_304 hstat
  unfold errState at hstate
  split at hstate
  · rename_i hv
    subst hv
    rw [internalCacheFetch_of_read_none hstate,
      fetchRemote_ok_modified s _ none 0 "" now hne304]
    simp [errMissOutcome, errEtag]
  · rename_i hv
    rw [internalCacheFetch_of_read_some hstate,
      shouldUseCachedValue_stamped s r v t cutoff hk hcl2,
      if_pos (show r.statusCode ∈ errorStatuses ∧ v ≤ s.maxErrorVersion from
        ⟨hstat, hcap⟩)]
    rw [if_neg (by simp)]
    rw [fetchRemote_ok_modified s _ _ _ _ now hne304]
    simp [errMissOutcome, errEtag, hv]

/-- A run of calls against the always-failing endpoint that stays within
the error cap: every call misses and commits the next version, so the
outcomes and the final storage are exactly the expected ones. -/
theorem errTrace_within_cap (s : Store) (u : URL) (r : Response)
    (hk : s.fetchTimestampKey ≠ s.fetchVersionKey)
    (hstat : r.statusCode ∈ errorStatuses)
    (hcl : r.contentLength = -1 ∨ minimumContentLength ≤ r.contentLength) :
    ∀ (calls : List (Int × Int)) (v t : Int) (st : Storage),
      0 ≤ v → v + (calls.length : Int) ≤ s.maxErrorVersion + 1 →
      errState s (fsKey s.fileSystemRoot u) r v t st →
      runTrace s u (calls.map (fun p => (p.1, TransportResult.ok r, p.2))) st =
        (expectedErrOutputs s (fsKey s.fileSystemRoot u) r v t calls,
         expectedErrStorage s (fsKey s.fileSystemRoot u) r v t calls st) := by
  intro calls
  induction calls with
  | nil =>
    intro v t st h0 hlen hstate
    simp [runTrace, expectedErrOutputs, expectedErrStorage]
  | cons call rest ih =>
    intro v t st h0 hlen hstate
    obtain ⟨cutoff, now⟩ := call
    have hlen2 : v + ((rest.length : Int) + 1) ≤ s.maxErrorVersion + 1 := by
      simpa [List.length_cons] using hlen
    have hcap : v ≤ s.maxErrorVersion := by omega
    have hcall := errCall_within_cap s u r hk hstat hcl st v t cutoff now h0
      hcap hstate
    simp only [List.map_cons, runTrace]
    rw [hcall]
    have hcommit :
        applyCommit st (errMissOutcome s (fsKey s.fileSystemRoot u) r v t now) =
          insertFile st (fsKey s.fileSystemRoot u)
            (CacheFile.good (prepareForWriting s (v + 1) r now)) := rfl
    rw [hcommit]
    have hstate2 : errState s (fsKey s.fileSystemRoot u) r (v + 1) now
        (insertFile st (fsKey s.fileSystemRoot u)
          (CacheFile.good (prepareForWriting s (v + 1) r now))) := by
      unfold errState
      rw [if_neg (by omega)]
      exact readAndParseGZIPFile_insertFile_good _ _ _
    rw [ih (v + 1) now _ (by omega) (by omega) hstate2]
    simp [expectedErrOutputs, expectedErrStorage]

/-- Every expected outcome of the within-cap run misses and contacts
the transport. -/
theorem mem_expectedErrOutputs (s : Store) (key : String) (r : Response) :
    ∀ (calls : List (Int × Int)) (v t : Int) (o : FetchOutcome),
      o ∈ expectedErrOutputs s key r v t calls →
      o.transportCalled = true ∧ o.cached = false ∧ o.commit.isSome = true := by
  intro calls
  induction calls with
  | nil => intro v t o h; simp [expectedErrOutputs] at h
  | cons call rest ih =>
    intro v t o h
    obtain ⟨cutoff, now⟩ := call
    rcases List.mem_cons.mp h with rfl | h2
    · simp [errMissOutcome]
    · exact ih (v + 1) now o h2

/-! ## Claim theorems -/

/-- C5: for every request URL, the derived StorageKey equals the join
of root, the host, and a single segment
`<cleaned-path>?<cleaned-query>.gz`, where the cleaned path is the URL
path with its leading separator run stripped and the remaining
separators replaced by hyphens, the cleaned query is the raw query with
all separators replaced by hyphens, and the result is lower-cased. -/
theorem C5_fsKey_shape :
    ∀ (root : String) (u : URL), fsKeySpec root u = fsKey root u := by
  intro root u
  simp only [fsKeySpec, fsKey, filepathJoin3]
  congr 1
  rw [lowerString_append, lowerString_append, lowerString_append,
    (by decide : lowerString "?" = "?"), (by decide : lowerString ".gz" = ".gz")]

/-- C6: the freshness policy reports the stored entry unusable
(version 0, no hit) when the stored response declares an explicit
content length below 10 bytes, or the write-timestamp header does not
parse (absent headers read as `""`, which does not parse), or the
version header is present but does not parse; a response with no
version header at all is treated as version 1. -/
theorem C6_unusable_conditions :
    ∀ (s : Store) (rsp : Response) (cutoff : Int),
      ((rsp.contentLength ≠ -1 ∧ rsp.contentLength < minimumContentLength) →
        shouldUseCachedValue s rsp cutoff = (0, false)) ∧
      (parseGoInt (headerGet rsp.headers s.fetchTimestampKey) = none →
        shouldUseCachedValue s rsp cutoff = (0, false)) ∧
      ((headerGet rsp.headers s.fetchVersionKey ≠ "" ∧
          parseGoInt (headerGet rsp.headers s.fetchVersionKey) = none) →
        shouldUseCachedValue s rsp cutoff = (0, false)) ∧
      (headerGet rsp.headers s.fetchVersionKey = "" →
        getVersion s rsp = some 1) := by
  intro s rsp cutoff
  refine ⟨fun h => ?_, fun h => ?_, fun h => ?_, fun h => ?_⟩
  · unfold shouldUseCachedValue
    rw [if_pos h]
  · have hts : getWriteTimestamp s rsp = none := by
      simp only [getWriteTimestamp]
      split
      · exact h
      · rfl
    unfold shouldUseCachedValue
    split
    · rfl
    · rw [hts]
  · have hv : getVersion s rsp = none := by
      simp only [getVersion]
      rw [if_pos h.1]
      exact h.2
    unfold shouldUseCachedValue
    split
    · rfl
    · cases hw : getWriteTimestamp s rsp with
      | none => rfl
      | some t => rw [hv]
  · simp only [getVersion]
    rw [h]
    simp

/-- C6 witness: the four conditions at concrete stored responses. -/
theorem C6_unusable_conditions_witness :
    shouldUseCachedValue exStore exTiny200 0 = (0, false) ∧
    shouldUseCachedValue exStore exErr500 0 = (0, false) ∧
    shouldUseCachedValue exStore exBadVersion 0 = (0, false) ∧
    getVersion exStore exNoVersion = some 1 :=
  ⟨(C6_unusable_conditions exStore exTiny200 0).1 (by decide),
   (C6_unusable_conditions exStore exErr500 0).2.1 (by decide),
   (C6_unusable_conditions exStore exBadVersion 0).2.2.1 (by decide),
   (C6_unusable_conditions exStore exNoVersion 0).2.2.2 (by decide)⟩

/-- C7: when no decodable entry exists at the key, the fetch proceeds
as if no cached entry existed — the transport is contacted with an
empty entity tag, the read failure is never surfaced (an error can only
be the transport's own), and a non-304 reply is committed with version
`0 + 1 = 1`. -/
theorem C7_read_failure_recovered :
    ∀ (s : Store) (st : Storage) (u : URL) (cutoff : Int)
      (tr : TransportResult) (now : Int),
      readAndParseGZIPFile st (fsKey s.fileSystemRoot u) = none →
      (internalCacheFetch s st u cutoff tr now).transportCalled = true ∧
      (internalCacheFetch s st u cutoff tr now).etagSent = some "" ∧
      (∀ e, (internalCacheFetch s st u cutoff tr now).error = some e →
        tr = TransportResult.err e) ∧
      (∀ r, tr = TransportResult.ok r →
        (internalCacheFetch s st u cutoff tr now).error = none) ∧
      (∀ r, tr = TransportResult.ok r → r.statusCode ≠ statusNotModified →
        (internalCacheFetch s st u cutoff tr now).commit =
          some (fsKey s.fileSystemRoot u, prepareForWriting s 1 r now)) := by
  intro s st u cutoff tr now h
  rw [internalCacheFetch_of_read_none h]
  cases tr with
  | err e =>
    rw [fetchRemote_err]
    refine ⟨rfl, rfl, fun e2 he => ?_, fun r hr => ?_, fun r hr => ?_⟩
    · cases he
      rfl
    · cases hr
    · cases hr
  | ok r =>
    by_cases h304 : r.statusCode = statusNotModified
    · rw [fetchRemote_ok_notModified s _ none 0 "" now h304]
      refine ⟨rfl, rfl, fun e2 he => ?_, fun r2 hr => rfl, fun r2 hr hne => ?_⟩
      · cases he
      · cases hr
        exact absurd h304 hne
    · rw [fetchRemote_ok_modified s _ none 0 "" now h304]
      refine ⟨rfl, rfl, fun e2 he => ?_, fun r2 hr => rfl, fun r2 hr hne => ?_⟩
      · cases he
      · cases hr
        norm_num

/-- C7 witness: a concrete fetch with an empty cache. -/
theorem C7_read_failure_recovered_witness :
    (internalCacheFetch exStore [] exUrl 0 (TransportResult.ok exOk200) 100).transportCalled = true ∧
    (internalCacheFetch exStore [] exUrl 0 (TransportResult.ok exOk200) 100).etagSent = some "" ∧
    (internalCacheFetch exStore [] exUrl 0 (TransportResult.ok exOk200) 100).commit =
      some (fsKey exStore.fileSystemRoot exUrl, prepareForWriting exStore 1 exOk200 100) :=
  ⟨(C7_read_failure_recovered exStore [] exUrl 0 (TransportResult.ok exOk200) 100 (by decide)).1,
   (C7_read_failure_recovered exStore [] exUrl 0 (TransportResult.ok exOk200) 100 (by decide)).2.1,
   (C7_read_failure_recovered exStore [] exUrl 0 (TransportResult.ok exOk200) 100 (by decide)).2.2.2.2
     exOk200 rfl (by decide)⟩

/-- C8: whenever the transport is actually consulted and returns an
error, that error is propagated verbatim, with no response, no cache
hit, a no-op commit, and storage untouched. -/
theorem C8_transport_error_propagated :
    ∀ (s : Store) (st : Storage) (u : URL) (cutoff : Int) (e : String)
      (now : Int),
      (internalCacheFetch s st u cutoff (TransportResult.err e) now).transportCalled = true →
      (internalCacheFetch s st u cutoff (TransportResult.err e) now).error = some e ∧
      (internalCacheFetch s st u cutoff (TransportResult.err e) now).rsp = none ∧
      (internalCacheFetch s st u cutoff (TransportResult.err e) now).cached = false ∧
      (internalCacheFetch s st u cutoff (TransportResult.err e) now).commit = none ∧
      applyCommit st (internalCacheFetch s st u cutoff (TransportResult.err e) now) = st := by
  intro s st u cutoff e now htc
  rcases hread : readAndParseGZIPFile st (fsKey s.fileSystemRoot u) with _ | r
  · rw [internalCacheFetch_of_read_none hread, fetchRemote_err]
    exact ⟨rfl, rfl, rfl, rfl, rfl⟩
  · rw [internalCacheFetch_of_read_some hread] at htc ⊢
    by_cases hOk : (shouldUseCachedValue s r cutoff).2 = true
    · rw [if_pos hOk] at htc
      cases htc
    · rw [if_neg hOk] at htc ⊢
      rw [fetchRemote_err]
      exact ⟨rfl, rfl, rfl, rfl, rfl⟩

/-- C8 witness: a transport failure on an empty cache. -/
theorem C8_transport_error_propagated_witness :
    (internalCacheFetch exStore [] exUrl 0 (TransportResult.err "dial tcp: timeout") 100).error =
      some "dial tcp: timeout" ∧
    applyCommit [] (internalCacheFetch exStore [] exUrl 0 (TransportResult.err "dial tcp: timeout") 100) = [] :=
  ⟨(C8_transport_error_propagated exStore [] exUrl 0 "dial tcp: timeout" 100 (by decide)).1,
   (C8_transport_error_propagated exStore [] exUrl 0 "dial tcp: timeout" 100 (by decide)).2.2.2.2⟩

/-- C9: when reading the cache file fails, `RawCacheData` never takes
its error-return branch (the guard compares `err != err`, false for
every error) and instead proceeds to read from the nil gzip reader; in
particular the read failure is never reported through the error
result. -/
theorem C9_rawCacheData_error_branch :
    ∀ (s : Store) (u : URL) (st : Storage) (e : String),
      readGZIPFile st (fsKey s.fileSystemRoot u) = Except.error e →
      rawCacheData s u st = RawReadResult.nilReaderRead ∧
      ∀ e2, rawCacheData s u st ≠ RawReadResult.err e2 := by
  intro s u st e h
  have hmain : rawCacheData s u st = RawReadResult.nilReaderRead := by
    unfold rawCacheData
    rw [h]
    simp
  exact ⟨hmain, fun e2 he => by rw [hmain] at he; cases he⟩

/-- C9 witness: an absent cache file. -/
theorem C9_rawCacheData_error_branch_witness :
    rawCacheData exStore exUrl [] = RawReadResult.nilReaderRead :=
  (C9_rawCacheData_error_branch exStore exUrl []
    "open: no such file or directory" rfl).1

/-- C10: with no decodable cached entry and a transport reply of 304
Not Modified (the conditional header having been sent with the empty
string), the fetch returns a nil response marked as a cache hit, a
no-op commit, and no error. -/
theorem C10_notModified_without_entry :
    ∀ (s : Store) (st : Storage) (u : URL) (cutoff : Int) (r : Response)
      (now : Int),
      readAndParseGZIPFile st (fsKey s.fileSystemRoot u) = none →
      r.statusCode = statusNotModified →
      internalCacheFetch s st u cutoff (TransportResult.ok r) now =
        { rsp := none, cached := true, commit := none, error := none
          transportCalled := true, etagSent := some "" } := by
  intro s st u cutoff r now h h304
  rw [internalCacheFetch_of_read_none h,
    fetchRemote_ok_notModified s _ none 0 "" now h304]

/-- C10 witness: a 304 reply on an empty cache. -/
theorem C10_notModified_without_entry_witness :
    internalCacheFetch exStore [] exUrl 0 (TransportResult.ok exNotModified) 100 =
      { rsp := none, cached := true, commit := none, error := none
        transportCalled := true, etagSent := some "" } :=
  C10_notModified_without_entry exStore [] exUrl 0 exNotModified 100
    (by decide) (by decide)

/-- C4 counterexample: two different query strings — `"a/b"` and
`"a-b"` — collide to the same StorageKey at a fixed host and path. -/
theorem C4_counterexample :
    fsKey "root" { host := "h", path := "/p", rawQuery := "a/b" } =
      fsKey "root" { host := "h", path := "/p", rawQuery := "a-b" } ∧
    ("a/b" : String) ≠ "a-b" := by
  exact ⟨by decide, by decide⟩

/-- C4 (amended): key derivation is deterministic in the
(host, path, query) triple, and for fixed host and path two query
strings produce different keys whenever they still differ after
replacing every separator with a hyphen and lower-casing. -/
theorem C4_key_determinism_and_injectivity :
    (∀ (root : String) (u v : URL), u.host = v.host → u.path = v.path →
      u.rawQuery = v.rawQuery → fsKey root u = fsKey root v) ∧
    (∀ (root : String) (u v : URL), u.host = v.host → u.path = v.path →
      lowerString (replaceSlashes u.rawQuery) ≠
        lowerString (replaceSlashes v.rawQuery) →
      fsKey root u ≠ fsKey root v) := by
  constructor
  · intro root u v hh hp hq
    obtain ⟨uh, up, uq⟩ := u
    obtain ⟨vh, vp, vq⟩ := v
    simp only at hh hp hq
    subst hh
    subst hp
    subst hq
    rfl
  · intro root u v hh hp hq hkey
    apply hq
    obtain ⟨uh, up, uq⟩ := u
    obtain ⟨vh, vp, vq⟩ := v
    simp only at hh hp hq hkey ⊢
    subst hh
    subst hp
    simp only [fsKey, filepathJoin3] at hkey
    have hseg := stringAppend_left_cancel hkey
    rw [lowerString_append, lowerString_append, lowerString_append,
      lowerString_append, lowerString_append, lowerString_append] at hseg
    have h1 := stringAppend_right_cancel hseg
    have h2 := stringAppend_left_cancel h1
    exact h2

/-- C4 witness: equal triples give equal keys, and queries `"a"` and
`"b"` (distinct after cleaning) give distinct keys. -/
theorem C4_key_determinism_and_injectivity_witness :
    fsKey "root" { host := "h", path := "/p", rawQuery := "a" } ≠
      fsKey "root" { host := "h", path := "/p", rawQuery := "b" } :=
  C4_key_determinism_and_injectivity.2 "root"
    { host := "h", path := "/p", rawQuery := "a" }
    { host := "h", path := "/p", rawQuery := "b" } rfl rfl (by decide)

/-- C2 counterexample: a stale non-error entry carrying stored
version 5 is reported by the policy with version 0 — not 5 — and the
overwrite that follows is stamped version 1, not 6. -/
theorem C2_counterexample :
    getVersion exStore exStored5 = some 5 ∧
    shouldUseCachedValue exStore exStored5 200 = (0, false) ∧
    (internalCacheFetch exStore
        (insertFile [] (fsKey exStore.fileSystemRoot exUrl)
          (CacheFile.good exStored5))
        exUrl 200 (TransportResult.ok exOk200) 300).commit =
      some (fsKey exStore.fileSystemRoot exUrl,
        prepareForWriting exStore 1 exOk200 300) := by
  exact ⟨by decide, by decide, by decide⟩

/-- C2 (amended): when the freshness policy reaches its final step and
the stored write-timestamp is not strictly after the cutoff, it reports
a miss with version 0 — not the stored version — so the next write is
stamped version 1 and the counter restarts; the counter starts at 1 on
a key's first write, and an overwrite is stamped with exactly the
policy's reported version plus 1 (so it increments by 1 only along the
bounded-error-retry path, which reports the stored version). -/
theorem C2_version_counter :
    ∀ (s : Store) (st : Storage) (u : URL) (rsp : Response)
      (cutoff t v now : Int) (r : Response),
      (¬(rsp.contentLength ≠ -1 ∧ rsp.contentLength < minimumContentLength) →
        getWriteTimestamp s rsp = some t → getVersion s rsp = some v →
        ¬(rsp.statusCode ∈ errorStatuses ∧ v ≤ s.maxErrorVersion) →
        t ≤ cutoff →
        shouldUseCachedValue s rsp cutoff = (0, false)) ∧
      (readAndParseGZIPFile st (fsKey s.fileSystemRoot u) = some rsp →
        (shouldUseCachedValue s rsp cutoff).2 = false →
        r.statusCode ≠ statusNotModified →
        (internalCacheFetch s st u cutoff (TransportResult.ok r) now).commit =
          some (fsKey s.fileSystemRoot u,
            prepareForWriting s ((shouldUseCachedValue s rsp cutoff).1 + 1)
              r now)) ∧
      (readAndParseGZIPFile st (fsKey s.fileSystemRoot u) = none →
        r.statusCode ≠ statusNotModified →
        (internalCacheFetch s st u cutoff (TransportResult.ok r) now).commit =
          some (fsKey s.fileSystemRoot u, prepareForWriting s 1 r now)) := by
  intro s st u rsp cutoff t v now r
  refine ⟨fun hcl hts hv herr hle => ?_, fun hread hmiss h304 => ?_,
    fun hread h304 => ?_⟩
  · unfold shouldUseCachedValue
    rw [if_neg hcl]
    simp only [hts, hv]
    rw [if_neg herr, if_neg (by omega : ¬ t > cutoff)]
  · rw [internalCacheFetch_of_read_some hread, if_neg (by simp [hmiss]),
      fetchRemote_ok_modified s _ _ _ _ now h304]
  · rw [internalCacheFetch_of_read_none hread,
      fetchRemote_ok_modified s _ none 0 "" now h304]
    norm_num

/-- C2 witness: the three parts at concrete inputs — the stale final
step at `exStored5`, the overwrite after that miss, and a first
write. -/
theorem C2_version_counter_witness :
    shouldUseCachedValue exStore exStored5 200 = (0, false) ∧
    (internalCacheFetch exStore
        (insertFile [] (fsKey exStore.fileSystemRoot exUrl)
          (CacheFile.good exStored5))
        exUrl 200 (TransportResult.ok exOk200) 300).commit =
      some (fsKey exStore.fileSystemRoot exUrl,
        prepareForWriting exStore
          ((shouldUseCachedValue exStore exStored5 200).1 + 1) exOk200 300) ∧
    (internalCacheFetch exStore [] exUrl 0 (TransportResult.ok exOk200) 100).commit =
      some (fsKey exStore.fileSystemRoot exUrl,
        prepareForWriting exStore 1 exOk200 100) :=
  ⟨(C2_version_counter exStore [] exUrl exStored5 200 100 5 300 exOk200).1
      (by decide) (by decide) (by decide) (by decide) (by decide),
   (C2_version_counter exStore
      (insertFile [] (fsKey exStore.fileSystemRoot exUrl)
        (CacheFile.good exStored5)) exUrl exStored5 200 100 5 300 exOk200).2.1
      (readAndParseGZIPFile_insertFile_good _ _ _) (by decide) (by decide),
   (C2_version_counter exStore [] exUrl exStored5 0 100 5 100 exOk200).2.2
      rfl (by decide)⟩

/-- C3 counterexample: a 200 response declaring a 2-byte body, fetched
once and committed, is refetched by a second CacheFetch with the zero
cutoff (transport contacted again, no hit); the same happens for a
committed 500 response. -/
theorem C3_counterexample :
    ((internalCacheFetch exStore [] exUrl goZeroTimeUnix
        (TransportResult.ok exTiny200) 100).commit.isSome = true ∧
     (internalCacheFetch exStore
        (applyCommit [] (internalCacheFetch exStore [] exUrl goZeroTimeUnix
          (TransportResult.ok exTiny200) 100))
        exUrl goZeroTimeUnix (TransportResult.ok exTiny200) 200).transportCalled = true ∧
     (internalCacheFetch exStore
        (applyCommit [] (internalCacheFetch exStore [] exUrl goZeroTimeUnix
          (TransportResult.ok exTiny200) 100))
        exUrl goZeroTimeUnix (TransportResult.ok exTiny200) 200).cached = false) ∧
    ((internalCacheFetch exStore [] exUrl goZeroTimeUnix
        (TransportResult.ok exErr500) 100).commit.isSome = true ∧
     (internalCacheFetch exStore
        (applyCommit [] (internalCacheFetch exStore [] exUrl goZeroTimeUnix
          (TransportResult.ok exErr500) 100))
        exUrl goZeroTimeUnix (TransportResult.ok exErr500) 200).transportCalled = true) := by
  exact ⟨⟨by decide, by decide, by decide⟩, ⟨by decide, by decide⟩⟩

/-- C3 (amended): for a request whose response — of non-retryable
status, not 304, and with no declared content length below the
minimum — is fetched once into an empty key and committed at a time
after Go's zero time, a second CacheFetch with the zero/unset cutoff is
a pure cache hit: it returns exactly the stored (stamped) response,
hence the same body bytes, and contacts the transport zero times. -/
theorem C3_repeat_fetch_zero_cutoff (s : Store) (st : Storage) (u : URL)
    (cutoff1 now1 : Int) (r : Response)
    (hk : s.fetchTimestampKey ≠ s.fetchVersionKey)
    (hread : readAndParseGZIPFile st (fsKey s.fileSystemRoot u) = none)
    (h304 : r.statusCode ≠ statusNotModified)
    (herr : r.statusCode ∉ errorStatuses)
    (hcl : r.contentLength = -1 ∨ minimumContentLength ≤ r.contentLength)
    (hnow : goZeroTimeUnix < now1) :
    (internalCacheFetch s st u cutoff1 (TransportResult.ok r) now1).cached = false ∧
    (internalCacheFetch s st u cutoff1 (TransportResult.ok r) now1).rsp =
      some (prepareForWriting s 1 r now1) ∧
    ∀ (tr2 : TransportResult) (now2 : Int),
      internalCacheFetch s
          (applyCommit st
            (internalCacheFetch s st u cutoff1 (TransportResult.ok r) now1))
          u goZeroTimeUnix tr2 now2 =
        { rsp := some (prepareForWriting s 1 r now1), cached := true
          commit := none, error := none, transportCalled := false
          etagSent := none } := by
  have hcl2 : ¬(r.contentLength ≠ -1 ∧ r.contentLength < minimumContentLength) := by
    rintro ⟨a, b⟩
    rcases hcl with h | h
    · exact a h
    · omega
  have h1 : internalCacheFetch s st u cutoff1 (TransportResult.ok r) now1 =
      { rsp := some (prepareForWriting s (0 + 1) r now1), cached := false
        commit := some (fsKey s.fileSystemRoot u,
          prepareForWriting s (0 + 1) r now1)
        error := none, transportCalled := true, etagSent := some "" } := by
    rw [internalCacheFetch_of_read_none hread,
      fetchRemote_ok_modified s _ none 0 "" now1 h304]
  refine ⟨by rw [h1], by rw [h1]; norm_num, fun tr2 now2 => ?_⟩
  rw [h1]
  have hread2 : readAndParseGZIPFile
      (insertFile st (fsKey s.fileSystemRoot u)
        (CacheFile.good (prepareForWriting s (0 + 1) r now1)))
      (fsKey s.fileSystemRoot u) =
      some (prepareForWriting s (0 + 1) r now1) :=
    readAndParseGZIPFile_insertFile_good _ _ _
  show internalCacheFetch s
      (insertFile st (fsKey s.fileSystemRoot u)
        (CacheFile.good (prepareForWriting s (0 + 1) r now1)))
      u goZeroTimeUnix tr2 now2 = _
  rw [internalCacheFetch_of_read_some hread2,
    shouldUseCachedValue_stamped s r (0 + 1) now1 goZeroTimeUnix hk hcl2,
    if_neg (show ¬(r.statusCode ∈ errorStatuses ∧
      (0 : Int) + 1 ≤ s.maxErrorVersion) from fun hand => herr hand.1),
    if_pos (show now1 > goZeroTimeUnix from hnow)]
  norm_num

/-- C3 witness: a healthy 200 response fetched at time 100, then
refetched with the zero cutoff. -/
theorem C3_repeat_fetch_zero_cutoff_witness :
    internalCacheFetch exStore
        (applyCommit []
          (internalCacheFetch exStore [] exUrl 0 (TransportResult.ok exOk200) 100))
        exUrl goZeroTimeUnix (TransportResult.err "unreachable") 200 =
      { rsp := some (prepareForWriting exStore 1 exOk200 100), cached := true
        commit := none, error := none, transportCalled := false
        etagSent := none } :=
  (C3_repeat_fetch_zero_cutoff exStore [] exUrl 0 100 exOk200 (by decide) rfl
    (by decide) (by decide) (Or.inl rfl) (by decide)).2.2
    (TransportResult.err "unreachable") 200

/-- C1 counterexample: `maxErrorVersion = 2`, transport always
answering 500.  The 3rd call — the `(N+1)`th — still contacts the
transport (the claim says every call from the `(N+1)`th onward is a
cache hit with no transport call), and once the stored version exceeds
the cap a call with cutoff 1000 (at/after the stored write time 300)
also contacts the transport (the claim says such entries are hits for
every freshness cutoff, the cutoff never being consulted). -/
theorem C1_counterexample :
    ((runTrace exStore2 exUrl
        [(0, TransportResult.ok exErr500, 100), (0, TransportResult.ok exErr500, 200),
         (0, TransportResult.ok exErr500, 300), (0, TransportResult.ok exErr500, 400),
         (1000, TransportResult.ok exErr500, 500)] []).1.map
      (fun o => (o.transportCalled, o.cached))) =
      [(true, false), (true, false), (true, false), (false, true), (true, false)] := by
  decide

/-- C1 (amended): with `maxErrorVersion = N` and a transport that
always returns a retryable-error response (of no declared content
length below the minimum): (a) each of the first `N + 1` calls from an
empty key contacts the transport as a miss, the `i`-th committing
version `i`; (b) once the stored version exceeds `N`, a call whose
cutoff is strictly before the stored write-timestamp is served from
cache with no transport call; (c) but a call whose cutoff is at or
after the stored write-timestamp contacts the transport again and
commits version 1 — the cutoff is still consulted past the cap. -/
theorem C1_bounded_error_retry :
    ∀ (s : Store) (u : URL) (r : Response),
      s.fetchTimestampKey ≠ s.fetchVersionKey →
      r.statusCode ∈ errorStatuses →
      (r.contentLength = -1 ∨ minimumContentLength ≤ r.contentLength) →
      (∀ (calls : List (Int × Int)) (st : Storage),
        readAndParseGZIPFile st (fsKey s.fileSystemRoot u) = none →
        (calls.length : Int) ≤ s.maxErrorVersion + 1 →
        runTrace s u (calls.map (fun p => (p.1, TransportResult.ok r, p.2))) st =
          (expectedErrOutputs s (fsKey s.fileSystemRoot u) r 0 0 calls,
           expectedErrStorage s (fsKey s.fileSystemRoot u) r 0 0 calls st) ∧
        ∀ o ∈ (runTrace s u
            (calls.map (fun p => (p.1, TransportResult.ok r, p.2))) st).1,
          o.transportCalled = true ∧ o.cached = false ∧ o.commit.isSome = true) ∧
      (∀ (st : Storage) (v t cutoff now : Int) (tr : TransportResult),
        readAndParseGZIPFile st (fsKey s.fileSystemRoot u) =
          some (prepareForWriting s v r t) →
        s.maxErrorVersion < v → cutoff < t →
        internalCacheFetch s st u cutoff tr now =
          { rsp := some (prepareForWriting s v r t), cached := true
            commit := none, error := none, transportCalled := false
            etagSent := none }) ∧
      (∀ (st : Storage) (v t cutoff now : Int),
        readAndParseGZIPFile st (fsKey s.fileSystemRoot u) =
          some (prepareForWriting s v r t) →
        s.maxErrorVersion < v → t ≤ cutoff →
        (internalCacheFetch s st u cutoff (TransportResult.ok r) now).transportCalled = true ∧
        (internalCacheFetch s st u cutoff (TransportResult.ok r) now).cached = false ∧
        (internalCacheFetch s st u cutoff (TransportResult.ok r) now).commit =
          some (fsKey s.fileSystemRoot u, prepareForWriting s 1 r now)) := by
  intro s u r hk hstat hcl
  have hcl2 : ¬(r.contentLength ≠ -1 ∧ r.contentLength < minimumContentLength) := by
    rintro ⟨a, b⟩
    rcases hcl with h | h
    · exact a h
    · omega
  have hne304 := mem_errorStatuses_ne_304 hstat
  refine ⟨fun calls st hread hlen => ?_, fun st v t cutoff now tr hread hv hcut => ?_,
    fun st v t cutoff now hread hv hcut => ?_⟩
  · have hstate : errState s (fsKey s.fileSystemRoot u) r 0 0 st := by
      unfold errState
      rw [if_pos rfl]
      exact hread
    have hrun := errTrace_within_cap s u r hk hstat hcl calls 0 0 st le_rfl
      (by omega) hstate
    refine ⟨hrun, fun o ho => ?_⟩
    rw [hrun] at ho
    exact mem_expectedErrOutputs s (fsKey s.fileSystemRoot u) r calls 0 0 o ho
  · rw [internalCacheFetch_of_read_some hread,
      shouldUseCachedValue_stamped s r v t cutoff hk hcl2,
      if_neg (show ¬(r.statusCode ∈ errorStatuses ∧ v ≤ s.maxErrorVersion) from
        fun hand => by omega),
      if_pos (show t > cutoff from hcut)]
    rw [if_pos rfl]
  · rw [internalCacheFetch_of_read_some hread,
      shouldUseCachedValue_stamped s r v t cutoff hk hcl2,
      if_neg (show ¬(r.statusCode ∈ errorStatuses ∧ v ≤ s.maxErrorVersion) from
        fun hand => by omega),
      if_neg (show ¬ t > cutoff from by omega)]
    rw [if_neg (by simp), fetchRemote_ok_modified s _ _ _ _ now hne304]
    norm_num

/-- C1 witness: `maxErrorVersion = 2`, three calls from an empty cache
all miss (committing versions 1, 2, 3); with stored version 3 a call
with cutoff 0 (before the stored write time 300) is a hit without a
transport call, and a call with cutoff 300 contacts the transport and
commits version 1. -/
theorem C1_bounded_error_retry_witness :
    (runTrace exStore2 exUrl
        ([((0 : Int), (100 : Int)), (0, 200), (0, 300)].map
          (fun p => (p.1, TransportResult.ok exErr500, p.2))) [] =
      (expectedErrOutputs exStore2 (fsKey exStore2.fileSystemRoot exUrl)
        exErr500 0 0 [(0, 100), (0, 200), (0, 300)],
       expectedErrStorage exStore2 (fsKey exStore2.fileSystemRoot exUrl)
        exErr500 0 0 [(0, 100), (0, 200), (0, 300)] [])) ∧
    (internalCacheFetch exStore2
        (insertFile [] (fsKey exStore2.fileSystemRoot exUrl)
          (CacheFile.good (prepareForWriting exStore2 3 exErr500 300)))
        exUrl 0 (TransportResult.err "down") 400 =
      { rsp := some (prepareForWriting exStore2 3 exErr500 300), cached := true
        commit := none, error := none, transportCalled := false
        etagSent := none }) ∧
    (internalCacheFetch exStore2
        (insertFile [] (fsKey exStore2.fileSystemRoot exUrl)
          (CacheFile.good (prepareForWriting exStore2 3 exErr500 300)))
        exUrl 300 (TransportResult.ok exErr500) 400).commit =
      some (fsKey exStore2.fileSystemRoot exUrl,
        prepareForWriting exStore2 1 exErr500 400) :=
  ⟨((C1_bounded_error_retry exStore2 exUrl exErr500 (by decide) (by decide)
      (Or.inl rfl)).1 [(0, 100), (0, 200), (0, 300)] [] rfl (by decide)).1,
   (C1_bounded_error_retry exStore2 exUrl exErr500 (by decide) (by decide)
      (Or.inl rfl)).2.1 _ 3 300 0 400 (TransportResult.err "down")
      (readAndParseGZIPFile_insertFile_good _ _ _) (by decide) (by decide),
   ((C1_bounded_error_retry exStore2 exUrl exErr500 (by decide) (by decide)
      (Or.inl rfl)).2.2 _ 3 300 300 400
      (readAndParseGZIPFile_insertFile_good _ _ _) (by decide) (by decide)).2.2⟩

end Httpclient